import Mathlib

/-!
Shallow embedding of the field-extraction pipeline of the med-digitize
repository, together with proofs about it.

The embedded code:
- `src/utils/ocrService.ts`: `OCRService.extractFields`, `OCRService.generatePatientId`
- `src/services/localOCRService.ts`: `LocalOCRService.fallbackExtraction`
  and `AIService.enhanceExtraction` / `AIService.fallbackExtraction`
- `supabase/functions/enhance-extraction/index.ts`: the merge and
  regex-gap-fill part of the request handler
- the `handleSave` persistence path of the `RecordForm` component
  (Supabase variant).

The regular expressions of the source are embedded as bespoke matching
functions over `List Char` that reproduce ECMAScript semantics for the
constructs the patterns use: leftmost match, ordered alternation,
greedy quantifiers with backtracking, case-insensitive literal matching
over ASCII, and capture of group 1.
-/

set_option maxRecDepth 4096

/-- ASCII lowercasing, as the `i` regex flag and `String.toLowerCase`
act on the ASCII letters used by all patterns in the source. -/
def lowerChar (c : Char) : Char :=
  if 65 ≤ c.toNat && c.toNat ≤ 90 then Char.ofNat (c.toNat + 32) else c

/-- ASCII uppercasing, as `String.toUpperCase` acts on ASCII letters. -/
def upperChar (c : Char) : Char :=
  if 97 ≤ c.toNat && c.toNat ≤ 122 then Char.ofNat (c.toNat - 32) else c

/-- The ECMAScript `\s` class, restricted to its ASCII members
(space, tab, line feed, carriage return, vertical tab, form feed);
the inputs the program handles are ASCII OCR text. -/
def isJsSpace (c : Char) : Bool :=
  c == ' ' || c == '\t' || c == '\n' || c == '\r' ||
  c == Char.ofNat 11 || c == Char.ofNat 12

/-- The ECMAScript `\w` class: ASCII alphanumerics and underscore. -/
def isWordChar (c : Char) : Bool :=
  c.isAlphanum || c == '_'

/-- A decimal digit, the `\d` class. -/
def isDigitChar (c : Char) : Bool :=
  48 ≤ c.toNat && c.toNat ≤ 57

/-- The `[:\s]` separator class used between label and value in every
field pattern of the source. -/
def isSepChar (c : Char) : Bool :=
  c == ':' || isJsSpace c

/-- `String.prototype.trim`: drop `\s` characters from both ends. -/
def trimChars (l : List Char) : List Char :=
  ((l.dropWhile isJsSpace).reverse.dropWhile isJsSpace).reverse

/-- `text.split('\n')`: split into segments at every line feed. -/
def splitNl : List Char → List (List Char)
  | [] => [[]]
  | c :: t =>
    let r := splitNl t
    if c == '\n' then [] :: r
    else
      match r with
      | [] => [[c]]
      | h :: hs => (c :: h) :: hs

/-- `text.split('\n').map(l => l.trim()).filter(l => l.length > 0)`,
the line preprocessing shared by all three extractors. -/
def linesOf (text : String) : List (List Char) :=
  ((splitNl text.toList).map trimChars).filter (fun l => !l.isEmpty)

/-- Case-insensitive literal prefix test: the pattern `p` is stored in
lowercase and compared against the ASCII-lowercased input. -/
def ciPrefix : List Char → List Char → Bool
  | [], _ => true
  | _ :: _, [] => false
  | p :: ps, c :: cs => (lowerChar c == p) && ciPrefix ps cs

/-- Ordered label alternation `(?:l1|l2|...)` followed by the
continuation `k`: each alternative is tried in order at the current
position with the full rest of the pattern, as ECMAScript backtracking
does. -/
def tryLabels (k : List Char → Option (List Char)) :
    List (List Char) → List Char → Option (List Char)
  | [], _ => none
  | L :: Ls, s =>
    if ciPrefix L s then
      match k (s.drop L.length) with
      | some r => some r
      | none => tryLabels k Ls s
    else tryLabels k Ls s

/-- Greedy `[:\s]*` followed by the continuation `k`, with the
backtracking order of a greedy star: prefer consuming a separator,
and on failure of the rest re-try with the separator given back. -/
def sepThenK (k : List Char → Option (List Char)) :
    List Char → Option (List Char)
  | [] => k []
  | c :: t =>
    if isSepChar c then
      match sepThenK k t with
      | some r => some r
      | none => k (c :: t)
    else k (c :: t)

/-- Greedy character-class capture `([cls]+)`: at least one character,
then as many as possible.  Nothing follows the group in any source
pattern, so no backtracking out of the greedy run is needed. -/
def capClassPlus (cls : Char → Bool) : List Char → Option (List Char)
  | [] => none
  | c :: t => if cls c then some (c :: t.takeWhile cls) else none

/-- Ordered literal alternation capture `(a1|a2|...)`: the first
alternative that matches case-insensitively wins, and the capture is
the original (case-preserving) slice of the input. -/
def capAlts : List (List Char) → List Char → Option (List Char)
  | [], _ => none
  | a :: as, s => if ciPrefix a s then some (s.take a.length) else capAlts as s

/-- Leftmost-match scan: try the whole pattern at each successive
start position, as ECMAScript `String.prototype.match` does. -/
def scanLeftmost (f : List Char → Option (List Char)) :
    List Char → Option (List Char)
  | [] => f []
  | c :: t =>
    match f (c :: t) with
    | some r => some r
    | none => scanLeftmost f t

/-- A full labeled pattern `(?:labels)[:\s]*(capture)` applied at one
position. -/
def matchAt (labels : List (List Char))
    (cap : List Char → Option (List Char)) : List Char → Option (List Char) :=
  fun s => tryLabels (sepThenK cap) labels s

/-- A single literal character position inside a composite group;
returns the number of characters consumed by the rest. -/
def litChar (p : Char → Bool) (k : List Char → Option Nat) :
    List Char → Option Nat
  | [] => none
  | c :: t => if p c then (k t).map (· + 1) else none

/-- Greedy bounded repetition `\d{lo,n}` with backtracking: try the
largest digit count first, then hand the remainder to `k`; on failure
retry with one digit fewer, down to `lo`. -/
def tryDigitCounts (lo : Nat) (k : List Char → Option Nat) (s : List Char) :
    Nat → Option Nat
  | 0 => none
  | n + 1 =>
    if n + 1 < lo then none
    else if n + 1 ≤ (s.takeWhile isDigitChar).length then
      match k (s.drop (n + 1)) with
      | some m => some (n + 1 + m)
      | none => tryDigitCounts lo k s n
    else tryDigitCounts lo k s n

/-- The date capture group `(\d{1,2}[sep]\d{1,2}[sep]\d{2,4})`:
returns the consumed length. -/
def dateLen (sep : Char → Bool) (s : List Char) : Option Nat :=
  tryDigitCounts 1 (litChar sep (fun s2 =>
    tryDigitCounts 1 (litChar sep (fun s4 =>
      tryDigitCounts 2 (fun _ => some 0) s4 4)) s2 2)) s 2

/-- The date capture group as a slice of the input. -/
def dateCapture (sep : Char → Bool) (s : List Char) : Option (List Char) :=
  (dateLen sep s).map (fun n => s.take n)

/-- `(\d{1,3})`: one to three digits, greedy. -/
def digitsCap13 (s : List Char) : Option (List Char) :=
  let r := s.takeWhile isDigitChar
  if r.isEmpty then none else some (r.take 3)

/-- The second alternative `\d{2}\/\d{2}\/\d{4}` of the OCRService age
group.  It can only start with a digit, so the first alternative
`\d{1,3}` always preempts it; it is embedded nonetheless. -/
def ddSlashLen (s : List Char) : Option Nat :=
  tryDigitCounts 2 (litChar (· == '/') (fun s2 =>
    tryDigitCounts 2 (litChar (· == '/') (fun s4 =>
      tryDigitCounts 4 (fun _ => some 0) s4 4)) s2 2)) s 2

/-- OCRService age capture `(\d{1,3}|\d{2}\/\d{2}\/\d{4})`. -/
def ageCapOCR (s : List Char) : Option (List Char) :=
  match digitsCap13 s with
  | some r => some r
  | none => (ddSlashLen s).map (fun n => s.take n)

/-- `[1-9]\d?`, the (likewise preempted) second alternative of the
fallback extractor's age group. -/
def nzCap2 (s : List Char) : Option (List Char) :=
  match s with
  | [] => none
  | c :: t =>
    if 49 ≤ c.toNat && c.toNat ≤ 57 then
      some (c :: (t.takeWhile isDigitChar).take 1)
    else none

/-- Fallback-extractor age capture `(\d{1,3}|[1-9]\d?)`. -/
def ageCapFB (s : List Char) : Option (List Char) :=
  match digitsCap13 s with
  | some r => some r
  | none => nzCap2 s

/-- The gender normalization of every extractor in the source:
lowercase the captured token; `m` and `male` become `Male`, everything
else becomes `Female`. -/
def normalizeGender (tok : List Char) : List Char :=
  let g := tok.map lowerChar
  if g == "m".toList || g == "male".toList then "Male".toList
  else "Female".toList

/-- Per-field line loop of the extractors: a field keeps the trimmed
capture of the first matching line; a capture that trims to the empty
string leaves the field falsy, so later lines may still fill it. -/
def firstFieldValue (m : List Char → Option (List Char)) :
    List (List Char) → List Char
  | [] => []
  | l :: ls =>
    match m l with
    | some cap =>
      let v := trimChars cap
      if v.isEmpty then firstFieldValue m ls else v
    | none => firstFieldValue m ls

/-- The gender field is assigned a normalized (hence non-empty) value,
so the first capturing line wins outright; this returns that first
raw captured token. -/
def firstGenderToken (m : List Char → Option (List Char)) :
    List (List Char) → Option (List Char)
  | [] => none
  | l :: ls =>
    match m l with
    | some cap => some cap
    | none => firstGenderToken m ls

/-! ## OCRService patterns (`src/utils/ocrService.ts` lines 38-45) -/

def nameLabelsOCR : List (List Char) :=
  ["name".toList, "patient".toList, "pt".toList]

/-- The `[a-zA-Z\s.]` value class of the OCRService name pattern. -/
def nameClsOCR (c : Char) : Bool :=
  c.isAlpha || isJsSpace c || c == '.'

def nameLineOCR : List Char → Option (List Char) :=
  scanLeftmost (matchAt nameLabelsOCR (capClassPlus nameClsOCR))

def ageLabelsOCR : List (List Char) :=
  ["age".toList, "dob".toList, "birth".toList]

def ageLineOCR : List Char → Option (List Char) :=
  scanLeftmost (matchAt ageLabelsOCR ageCapOCR)

def genderLabelsOCR : List (List Char) :=
  ["gender".toList, "sex".toList, "m/f".toList]

def genderAltsOCR : List (List Char) :=
  ["male".toList, "female".toList, "m".toList, "f".toList]

def genderLineOCR : List Char → Option (List Char) :=
  scanLeftmost (matchAt genderLabelsOCR (capAlts genderAltsOCR))

def dateLabelsOCR : List (List Char) :=
  ["date".toList, "dated".toList]

/-- `[\/\-]`. -/
def slashDash (c : Char) : Bool := c == '/' || c == '-'

def dateLineOCR : List Char → Option (List Char) :=
  scanLeftmost (matchAt dateLabelsOCR (dateCapture slashDash))

def diagLabelsOCR : List (List Char) :=
  ["diagnosis".toList, "dx".toList, "condition".toList, "problem".toList]

/-- The `[^\.]` value class of the OCRService diagnosis and
prescription patterns. -/
def notDot (c : Char) : Bool := !(c == '.')

def diagLineOCR : List Char → Option (List Char) :=
  scanLeftmost (matchAt diagLabelsOCR (capClassPlus notDot))

def rxLabelsOCR : List (List Char) :=
  ["prescription".toList, "rx".toList, "medication".toList,
   "medicine".toList, "drug".toList]

def rxLineOCR : List Char → Option (List Char) :=
  scanLeftmost (matchAt rxLabelsOCR (capClassPlus notDot))

/-- `[A-Z]`. -/
def isUpperAZ (c : Char) : Bool := 65 ≤ c.toNat && c.toNat ≤ 90

/-- `[a-z]`. -/
def isLowerAZ (c : Char) : Bool := 97 ≤ c.toNat && c.toNat ≤ 122

/-- One attempt of the whole-text name fallback
`/[A-Z][a-z]+ [A-Z][a-z]+/` at a fixed position; no case-insensitive
flag here, and the capture is the whole match. -/
def twoCapAt : List Char → Option (List Char)
  | [] => none
  | c :: t =>
    if isUpperAZ c then
      let r1 := t.takeWhile isLowerAZ
      if r1.isEmpty then none
      else
        match t.drop r1.length with
        | ' ' :: d :: v =>
          if isUpperAZ d then
            let r2 := v.takeWhile isLowerAZ
            if r2.isEmpty then none else some (c :: r1 ++ ' ' :: d :: r2)
          else none
        | _ => none
    else none

/-- `text.match(/[A-Z][a-z]+ [A-Z][a-z]+/)`, over the raw (unsplit)
text. -/
def nameFallback (t : List Char) : Option (List Char) :=
  scanLeftmost twoCapAt t

/-- Word-boundary test after a word character: the next character must
be absent or a non-word character. -/
def wordB : List Char → Bool
  | [] => true
  | c :: _ => !isWordChar c

/-- One attempt of `([1-9]\d?|100)\b` at a position already known to
satisfy the leading `\b`: the `[1-9]\d?` alternative is greedy, and
backtracking its optional digit cannot help because the digit that
follows always breaks the trailing boundary. -/
def ageNumAt : List Char → Option (List Char)
  | [] => none
  | c :: t =>
    let alt1 : Option (List Char) :=
      if 49 ≤ c.toNat && c.toNat ≤ 57 then
        match t with
        | d :: _u =>
          if isDigitChar d then
            (match t with
             | _ :: u => if wordB u then some [c, d] else none
             | [] => none)
          else if wordB t then some [c] else none
        | [] => some [c]
      else none
    match alt1 with
    | some r => some r
    | none =>
      if (c :: t).take 3 == "100".toList && wordB ((c :: t).drop 3) then
        some "100".toList
      else none

/-- Is there a `\b` between the previous character and a following
word character?  True at the start of the text or after a non-word
character. -/
def boundaryBefore : Option Char → Bool
  | none => true
  | some p => !isWordChar p

/-- Leftmost scan for `/\b([1-9]\d?|100)\b/` over the raw text,
threading the previous character for the leading boundary. -/
def ageFbGo (prev : Option Char) : List Char → Option (List Char)
  | [] => none
  | c :: t =>
    match (if boundaryBefore prev then ageNumAt (c :: t) else none) with
    | some r => some r
    | none => ageFbGo (some c) t

/-- `text.match(/\b([1-9]\d?|100)\b/)`, over the raw (unsplit) text. -/
def ageFallback (t : List Char) : Option (List Char) :=
  ageFbGo none t

/-- The canonical record shape produced by every extractor
(`ExtractedFields` in `src/utils/ocrService.ts`). -/
structure ExtractedFields where
  patientName : String
  age : String
  gender : String
  date : String
  diagnosis : String
  prescription : String
deriving Repr, DecidableEq

/-- `OCRService.extractFields` (`src/utils/ocrService.ts` lines
25-97): line-by-line first-match-wins labeled extraction, gender
normalization, then the whole-text name and age fallbacks for fields
still empty. -/
def extractFields (text : String) : ExtractedFields :=
  let ls := linesOf text
  let name0 := firstFieldValue nameLineOCR ls
  let age0 := firstFieldValue ageLineOCR ls
  let gender :=
    match firstGenderToken genderLineOCR ls with
    | some tok => normalizeGender tok
    | none => []
  let date := firstFieldValue dateLineOCR ls
  let diag := firstFieldValue diagLineOCR ls
  let rx := firstFieldValue rxLineOCR ls
  let name := if name0.isEmpty then (nameFallback text.toList).getD [] else name0
  let age := if age0.isEmpty then (ageFallback text.toList).getD [] else age0
  ⟨String.mk name, String.mk age, String.mk gender,
   String.mk date, String.mk diag, String.mk rx⟩

/-! ## Fallback-extractor patterns
(`src/services/localOCRService.ts` lines 70-77; `AIService.fallbackExtraction`
lines 342-349 is character-for-character the same pattern set) -/

def nameLabelsFB : List (List Char) :=
  ["name".toList, "patient".toList, "pt".toList, "mr".toList,
   "mrs".toList, "miss".toList, "dr".toList]

/-- The `[a-zA-Z\s.'-]` value class of the fallback name pattern. -/
def nameClsFB (c : Char) : Bool :=
  c.isAlpha || isJsSpace c || c == '.' || c == Char.ofNat 39 || c == '-'

def nameLineFB : List Char → Option (List Char) :=
  scanLeftmost (matchAt nameLabelsFB (capClassPlus nameClsFB))

/-- The fallback age labels `(?:age|yrs?|years?|y\/o|born)` with the
optional-suffix alternatives flattened in backtracking order: the
greedy `s?` tries the longer spelling first. -/
def ageLabelsFB : List (List Char) :=
  ["age".toList, "yrs".toList, "yr".toList, "years".toList,
   "year".toList, "y/o".toList, "born".toList]

def ageLineFB : List Char → Option (List Char) :=
  scanLeftmost (matchAt ageLabelsFB ageCapFB)

def genderLabelsFB : List (List Char) :=
  ["gender".toList, "sex".toList, "male".toList, "female".toList,
   "m/f".toList, "patient".toList]

def genderAltsFB : List (List Char) :=
  ["male".toList, "female".toList, "m".toList, "f".toList,
   "man".toList, "woman".toList]

def genderLineFB : List Char → Option (List Char) :=
  scanLeftmost (matchAt genderLabelsFB (capAlts genderAltsFB))

def dateLabelsFB : List (List Char) :=
  ["date".toList, "visit".toList, "seen".toList, "examined".toList,
   "today".toList]

/-- `[\/\-\.]`. -/
def slashDashDot (c : Char) : Bool := c == '/' || c == '-' || c == '.'

def dateLineFB : List Char → Option (List Char) :=
  scanLeftmost (matchAt dateLabelsFB (dateCapture slashDashDot))

def diagLabelsFB : List (List Char) :=
  ["diagnosis".toList, "dx".toList, "condition".toList, "problem".toList,
   "complain".toList, "chief".toList, "complaint".toList,
   "presenting".toList]

/-- The `[^,\n\r]` value class of the fallback diagnosis and
prescription patterns. -/
def notCommaNl (c : Char) : Bool :=
  !(c == ',' || c == '\n' || c == '\r')

def diagLineFB : List Char → Option (List Char) :=
  scanLeftmost (matchAt diagLabelsFB (capClassPlus notCommaNl))

def rxLabelsFB : List (List Char) :=
  ["prescription".toList, "rx".toList, "medication".toList,
   "medicine".toList, "drug".toList, "treatment".toList,
   "advised".toList, "prescribed".toList]

def rxLineFB : List Char → Option (List Char) :=
  scanLeftmost (matchAt rxLabelsFB (capClassPlus notCommaNl))

/-- `AIService.fallbackExtraction` / `LocalOCRService.fallbackExtraction`
(`src/services/localOCRService.ts` lines 58-96 and 330-387): the same
line loop as `extractFields` with an extended label set, the captured
gender token trimmed before normalization, and no whole-text
fallbacks. -/
def fallbackExtraction (text : String) : ExtractedFields :=
  let ls := linesOf text
  let gender :=
    match firstGenderToken genderLineFB ls with
    | some tok => normalizeGender (trimChars tok)
    | none => []
  ⟨String.mk (firstFieldValue nameLineFB ls),
   String.mk (firstFieldValue ageLineFB ls),
   String.mk gender,
   String.mk (firstFieldValue dateLineFB ls),
   String.mk (firstFieldValue diagLineFB ls),
   String.mk (firstFieldValue rxLineFB ls)⟩

/-- `AIService.enhanceExtraction` (`src/services/localOCRService.ts`
lines 307-328).  The remote round trip is a collaborator; `remote`
is `some r` when `supabase.functions.invoke` succeeded with payload
`r`, and `none` when it returned an error or threw, in which case the
catch block returns `fallbackExtraction` of the text. -/
def enhanceExtraction (remote : Option ExtractedFields) (text : String) :
    ExtractedFields :=
  match remote with
  | some r => r
  | none => fallbackExtraction text

/-! ## The enhance-extraction edge function
(`supabase/functions/enhance-extraction/index.ts` lines 53-98) -/

/-- The JSON object scraped out of the model response: for each of the
six canonical keys, `some v` when the parsed object carries that key
with string value `v`, `none` when the key is absent.  Extra keys do
not affect the six fields and are not modelled. -/
structure AIPartial where
  patientName : Option String
  age : Option String
  gender : Option String
  date : Option String
  diagnosis : Option String
  prescription : Option String
deriving Repr, DecidableEq

/-- The shallow merge of the parsed object over the empty defaults
(line 68: spread of `parsed` over the seeded `extractedFields`). -/
def mergeAI (p : AIPartial) : ExtractedFields :=
  ⟨p.patientName.getD "", p.age.getD "", p.gender.getD "",
   p.date.getD "", p.diagnosis.getD "", p.prescription.getD ""⟩

def emptyFields : ExtractedFields := ⟨"", "", "", "", "", ""⟩

def edgeNameLabels : List (List Char) :=
  ["name".toList, "patient".toList, "pt".toList]

def edgeAgeLabels : List (List Char) :=
  ["age".toList, "yrs".toList, "yr".toList, "years".toList, "year".toList]

def edgeGenderLabels : List (List Char) :=
  ["gender".toList, "sex".toList]

def edgeDateLabels : List (List Char) :=
  ["date".toList, "visit".toList]

def edgeDiagLabels : List (List Char) :=
  ["diagnosis".toList, "dx".toList, "condition".toList]

def edgeRxLabels : List (List Char) :=
  ["prescription".toList, "rx".toList, "medication".toList]

/-- Edge-function scans run over the whole original text, not
line-by-line (line 87: `extractedText.match(pattern)`). -/
def edgeNameScan (t : List Char) : Option (List Char) :=
  scanLeftmost (matchAt edgeNameLabels (capClassPlus nameClsFB)) t

def edgeAgeScan (t : List Char) : Option (List Char) :=
  scanLeftmost (matchAt edgeAgeLabels digitsCap13) t

def edgeGenderScan (t : List Char) : Option (List Char) :=
  scanLeftmost (matchAt edgeGenderLabels (capAlts genderAltsOCR)) t

def edgeDateScan (t : List Char) : Option (List Char) :=
  scanLeftmost (matchAt edgeDateLabels (dateCapture slashDashDot)) t

def edgeDiagScan (t : List Char) : Option (List Char) :=
  scanLeftmost (matchAt edgeDiagLabels (capClassPlus notCommaNl)) t

def edgeRxScan (t : List Char) : Option (List Char) :=
  scanLeftmost (matchAt edgeRxLabels (capClassPlus notCommaNl)) t

/-- The value a gap-fill assignment produces for a plain field: the
trimmed capture, or no change (the field stays empty) when the scan
finds nothing. -/
def fillVal (scan : List Char → Option (List Char)) (text : String) : String :=
  match scan text.toList with
  | some cap => String.mk (trimChars cap)
  | none => ""

/-- The gap-fill value for the gender field: trimmed capture fed
through the gender normalization (lines 90-93). -/
def fillGenderVal (text : String) : String :=
  match edgeGenderScan text.toList with
  | some cap => String.mk (normalizeGender (trimChars cap))
  | none => ""

/-- The gap-fill loop run unconditionally: every still-empty field is
replaced by its scan value over the original text. -/
def gapFillAll (f : ExtractedFields) (text : String) : ExtractedFields :=
  ⟨if f.patientName = "" then fillVal edgeNameScan text else f.patientName,
   if f.age = "" then fillVal edgeAgeScan text else f.age,
   if f.gender = "" then fillGenderVal text else f.gender,
   if f.date = "" then fillVal edgeDateScan text else f.date,
   if f.diagnosis = "" then fillVal edgeDiagScan text else f.diagnosis,
   if f.prescription = "" then fillVal edgeRxScan text else f.prescription⟩

/-- Lines 75-98: the gap-fill loop is guarded by
`!extractedFields.patientName || !extractedFields.diagnosis`. -/
def edgeFill (f : ExtractedFields) (text : String) : ExtractedFields :=
  if f.patientName = "" ∨ f.diagnosis = "" then gapFillAll f text else f

/-- The merge-and-gap-fill portion of the edge-function handler:
`parsed` is `some p` when a JSON object was found in the model
response and parsed, `none` when no `{...}` block was found or
`JSON.parse` threw (lines 63-72 leave the seeded defaults in place
in that case). -/
def enhanceHandler (parsed : Option AIPartial) (text : String) :
    ExtractedFields :=
  edgeFill (match parsed with | some p => mergeAI p | none => emptyFields) text

/-! ## Patient id generation (`src/utils/ocrService.ts` lines 99-103;
the copy in `src/services/localOCRService.ts` lines 98-102 is
identical) -/

/-- `patientName.replace(/\s+/g, '')`: removing every run of
whitespace removes exactly the whitespace characters. -/
def despace (l : List Char) : List Char :=
  l.filter (fun c => !isJsSpace c)

/-- Decimal digit character of `n % 10`. -/
def digitChar (n : Nat) : Char :=
  if n % 10 = 0 then '0' else if n % 10 = 1 then '1'
  else if n % 10 = 2 then '2' else if n % 10 = 3 then '3'
  else if n % 10 = 4 then '4' else if n % 10 = 5 then '5'
  else if n % 10 = 6 then '6' else if n % 10 = 7 then '7'
  else if n % 10 = 8 then '8' else '9'

/-- Fueled decimal rendering; any fuel above the digit count of `n`
yields the full rendering. -/
def decReprAux : Nat → Nat → List Char
  | 0, _ => []
  | fuel + 1, n =>
    if n < 10 then [digitChar n]
    else decReprAux fuel (n / 10) ++ [digitChar (n % 10)]

/-- Decimal rendering of a natural number, as `Number.prototype.toString`
renders the integer timestamps the source feeds it. -/
def decRepr (n : Nat) : List Char := decReprAux (n + 1) n

/-- `Date.now().toString().slice(-6)`: the last six characters of the
decimal timestamp (all of it when it is shorter). -/
def last6 (now : Nat) : List Char :=
  let d := decRepr now
  d.drop (d.length - 6)

/-- `OCRService.generatePatientId`: first three characters of the
de-whitespaced name, uppercased, followed by the low six digits of the
timestamp.  `now` stands for `Date.now()`. -/
def generatePatientId (patientName : String) (now : Nat) : String :=
  String.mk (((despace patientName.toList).take 3).map upperChar ++ last6 now)

/-! ## The save path of the review form (`RecordForm` handleSave,
Supabase variant, `src/unnamed/part_000` lines 30-103) -/

/-- A value as it appears in the insert payload sent to the
persistence collaborator. -/
inductive DBVal where
  | null
  | str (s : String)
  | int (n : Int)
  | nan
deriving Repr, DecidableEq

/-- `parseInt(s)` in base 10: skip leading whitespace, optional sign,
then the longest digit prefix; no digits means NaN (`none`).  (The
automatic hex mode for a `0x` prefix never applies to the digit
strings this form feeds it and is not modelled.) -/
def jsParseInt (s : String) : Option Int :=
  let l := s.toList.dropWhile isJsSpace
  let sgn : Int := match l with | '-' :: _ => -1 | _ => 1
  let l2 := match l with | '-' :: t => t | '+' :: t => t | _ => l
  let ds := l2.takeWhile isDigitChar
  if ds.isEmpty then none
  else some (sgn * (ds.foldl (fun a c => a * 10 + (c.toNat - 48)) 0 : Nat))

/-- The row inserted into `medical_records` (part_000 lines 67-83). -/
structure InsertRecord where
  patient_id : String
  patient_name : String
  age : DBVal
  gender : DBVal
  date_recorded : String
  diagnosis : DBVal
  prescription : DBVal
  raw_text : String
  image_url : DBVal
  doctor_id : String
deriving Repr, DecidableEq

/-- Outcome of one invocation of `handleSave`: bail out with no user,
abort on validation, or reach the persistence call with the given
payload.  A `validationError` result performs no insert and no image
upload: the early `return` precedes both. -/
inductive SaveResult where
  | noUser
  | validationError
  | proceed (r : InsertRecord)
deriving Repr, DecidableEq

/-- `handleSave` of the Supabase `RecordForm` (part_000 lines 30-103).
Collaborator inputs are parameters: `user` is the session user id,
`dateNorm` is the `new Date(...).toISOString().split('T')[0]`
normalization, `todayISO` the current date, `imageStorageUrl` the
public URL produced by the storage upload (empty when no blob image
was attached), `rawText` the OCR text prop, and `now` the timestamp
consumed by `generatePatientId`. -/
def handleSave (user : Option String) (fields : ExtractedFields)
    (dateNorm : String → String) (todayISO : String)
    (imageStorageUrl : String) (rawText : String) (now : Nat) : SaveResult :=
  match user with
  | none => .noUser
  | some uid =>
    if String.mk (trimChars fields.patientName.toList) = "" then
      .validationError
    else
      .proceed
        ⟨generatePatientId fields.patientName now,
         fields.patientName,
         (if fields.age = "" then .null
          else match jsParseInt fields.age with
               | some n => .int n
               | none => .nan),
         (if fields.gender = "" then .null else .str fields.gender),
         (if fields.date = "" then todayISO else dateNorm fields.date),
         (if fields.diagnosis = "" then .null else .str fields.diagnosis),
         (if fields.prescription = "" then .null else .str fields.prescription),
         rawText,
         (if imageStorageUrl = "" then .null else .str imageStorageUrl),
         uid⟩

/-- The gender value of the payload a save produced, when it reached
the persistence call. -/
def storedGender : SaveResult → Option DBVal
  | .proceed r => some r.gender
  | _ => none

/-! ## Structural lemmas about the matching engine -/

/-- Any successful `sepThenK` result is produced by its continuation
on some suffix. -/
theorem sepThenK_some (k : List Char → Option (List Char)) :
    ∀ s r, sepThenK k s = some r → ∃ t, k t = some r := by
  intro s
  induction s with
  | nil => intro r h; exact ⟨[], h⟩
  | cons c t ih =>
    intro r h
    unfold sepThenK at h
    by_cases hc : isSepChar c = true
    · rw [if_pos hc] at h
      cases he : sepThenK k t with
      | some r0 =>
        rw [he] at h
        injection h with h2
        subst h2
        exact ih r0 he
      | none => rw [he] at h; exact ⟨c :: t, h⟩
    · rw [if_neg hc] at h
      exact ⟨c :: t, h⟩

/-- Any successful label-alternation result is produced by the
continuation on some suffix. -/
theorem tryLabels_some (k : List Char → Option (List Char)) :
    ∀ Ls s r, tryLabels k Ls s = some r → ∃ t, k t = some r := by
  intro Ls
  induction Ls with
  | nil => intro s r h; exact absurd h (by simp [tryLabels])
  | cons L Ls ih =>
    intro s r h
    unfold tryLabels at h
    by_cases hc : ciPrefix L s = true
    · rw [if_pos hc] at h
      cases he : k (s.drop L.length) with
      | some r0 =>
        rw [he] at h
        injection h with h2
        subst h2
        exact ⟨s.drop L.length, he⟩
      | none => rw [he] at h; exact ih s r h
    · rw [if_neg hc] at h
      exact ih s r h

/-- Any successful leftmost-scan result is produced by the pattern at
some position. -/
theorem scanLeftmost_some (f : List Char → Option (List Char)) :
    ∀ s r, scanLeftmost f s = some r → ∃ t, f t = some r := by
  intro s
  induction s with
  | nil => intro r h; exact ⟨[], h⟩
  | cons c t ih =>
    intro r h
    unfold scanLeftmost at h
    cases he : f (c :: t) with
    | some r0 =>
      rw [he] at h
      injection h with h2
      subst h2
      exact ⟨c :: t, he⟩
    | none => rw [he] at h; exact ih r h

/-- Any token the gender line loop returns is a capture of the line
matcher on some line. -/
theorem firstGenderToken_some (m : List Char → Option (List Char)) :
    ∀ ls tok, firstGenderToken m ls = some tok → ∃ l, m l = some tok := by
  intro ls
  induction ls with
  | nil => intro tok h; exact absurd h (by simp [firstGenderToken])
  | cons l ls ih =>
    intro tok h
    unfold firstGenderToken at h
    cases he : m l with
    | some cap =>
      rw [he] at h
      injection h with h2
      subst h2
      exact ⟨l, he⟩
    | none => rw [he] at h; exact ih tok h

/-- A case-insensitive prefix is no longer than the scanned text. -/
theorem ciPrefix_length : ∀ p s : List Char, ciPrefix p s = true →
    p.length ≤ s.length := by
  intro p
  induction p with
  | nil => intro s _; simp
  | cons a as ih =>
    intro s h
    cases s with
    | nil => exact absurd h (by simp [ciPrefix])
    | cons c cs =>
      simp only [ciPrefix, Bool.and_eq_true] at h
      simpa using ih cs h.2

/-- If `man` matches case-insensitively at a position, so does `m`. -/
theorem ciPrefix_man_m (s : List Char) (h : ciPrefix "man".toList s = true) :
    ciPrefix "m".toList s = true := by
  cases s with
  | nil => exact absurd h (by simp [ciPrefix])
  | cons c cs =>
    simp only [ciPrefix, Bool.and_eq_true] at h ⊢
    exact ⟨h.1, trivial⟩

/-- The dead alternative of the fallback gender capture: the token
`man` can never be captured, because the alternative `m` is tried
first and matches whenever `man` would. -/
theorem capAlts_fb_ne_man (s tok : List Char)
    (h : capAlts genderAltsFB s = some tok) : tok ≠ "man".toList := by
  intro htok
  subst htok
  simp only [genderAltsFB, capAlts] at h
  split_ifs at h with h1 h2 h3 h4 h5 h6
  · have hl : 4 ≤ s.length := by simpa using ciPrefix_length _ s h1
    have := congrArg List.length (Option.some.inj h)
    simp [List.length_take] at this
    omega
  · have hl : 6 ≤ s.length := by simpa using ciPrefix_length _ s h2
    have := congrArg List.length (Option.some.inj h)
    simp [List.length_take] at this
    omega
  · have := congrArg List.length (Option.some.inj h)
    have hle : (s.take 1).length ≤ 1 := by
      simp [List.length_take]
    simp at this
    omega
  · have := congrArg List.length (Option.some.inj h)
    have hle : (s.take 1).length ≤ 1 := by
      simp [List.length_take]
    simp at this
    omega
  · exact h3 (ciPrefix_man_m s h5)
  · have hl : 5 ≤ s.length := by simpa using ciPrefix_length _ s h6
    have := congrArg List.length (Option.some.inj h)
    simp [List.length_take] at this
    omega

/-- When the gender loop captured token `tok`, the fallback extractor's
gender field is the normalization of the trimmed token. -/
theorem fallback_gender_eq (text : String) (tok : List Char)
    (h : firstGenderToken genderLineFB (linesOf text) = some tok) :
    (fallbackExtraction text).gender
      = String.mk (normalizeGender (trimChars tok)) := by
  simp [fallbackExtraction, h]

/-- If every line yields no capture, the per-field loop leaves the
field empty. -/
theorem firstFieldValue_of_none (m : List Char → Option (List Char)) :
    ∀ ls, (∀ l ∈ ls, m l = none) → firstFieldValue m ls = [] := by
  intro ls
  induction ls with
  | nil => intro _; rfl
  | cons l ls ih =>
    intro h
    unfold firstFieldValue
    rw [h l (by simp)]
    exact ih (fun x hx => h x (by simp [hx]))

/-- If every line yields no gender capture, the gender loop returns
nothing. -/
theorem firstGenderToken_of_none (m : List Char → Option (List Char)) :
    ∀ ls, (∀ l ∈ ls, m l = none) → firstGenderToken m ls = none := by
  intro ls
  induction ls with
  | nil => intro _; rfl
  | cons l ls ih =>
    intro h
    unfold firstGenderToken
    rw [h l (by simp)]
    exact ih (fun x hx => h x (by simp [hx]))

/-- The normalization can only produce the two canonical values. -/
theorem normalizeGender_cases (tok : List Char) :
    normalizeGender tok = "Male".toList ∨
      normalizeGender tok = "Female".toList := by
  by_cases hc : (List.map lowerChar tok == "m".toList
      || List.map lowerChar tok == "male".toList) = true
  · left
    simp only [normalizeGender]
    rw [if_pos hc]
  · right
    simp only [normalizeGender]
    rw [if_neg hc]

/-! ## Claim theorems -/

/-- Claim C1 (status: code_bug).  Evaluating the embedded
`OCRService.extractFields` at the end-to-end scenario input shows the
code returns `patientName = "Name"`, not `"Alice Walker"`: the name
pattern's label alternation matches `Patient` at position 0, the
separator run takes the following space, and the capture class stops
at the colon, so the captured group is the literal word `Name`.  The
other five fields come out as the claim states. -/
theorem c1_extractFields_scenario :
    extractFields "Patient Name: Alice Walker\nAge: 34\nGender: F\nDiagnosis: Seasonal allergies\nRx: Loratadine 10mg"
      = ⟨"Name", "34", "Female", "", "Seasonal allergies", "Loratadine 10mg"⟩ := by
  decide

/-- Claim C2, counterexample.  With the remote call failing, the
adapter returns its own fallback extraction, which differs from
`OCRService.extractFields` on the text `Dx: flu, cough`: the fallback
diagnosis capture class stops at a comma while the extractFields one
stops only at a dot. -/
theorem c2_adapter_fallback_cex :
    enhanceExtraction none "Dx: flu, cough" ≠ extractFields "Dx: flu, cough"
      ∧ (enhanceExtraction none "Dx: flu, cough").diagnosis = "flu"
      ∧ (extractFields "Dx: flu, cough").diagnosis = "flu, cough" := by
  refine ⟨?_, by decide, by decide⟩
  intro h
  have := congrArg ExtractedFields.diagnosis h
  revert this
  decide

/-- Claim C2, amended: when the remote enhancement call fails, the
adapter's output equals its own `fallbackExtraction` of the text (the
labeled-regex extractor with the extended label set), for every input
text and in every one of the six fields — and that function is not
extensionally equal to `OCRService.extractFields`. -/
theorem c2_adapter_fallback_amended (text : String) :
    enhanceExtraction none text = fallbackExtraction text
      ∧ ¬ ∀ t : String, fallbackExtraction t = extractFields t := by
  refine ⟨rfl, ?_⟩
  intro hall
  have hd := congrArg ExtractedFields.diagnosis (hall "Dx: flu, cough")
  revert hd
  decide

/-- Claim C3: whenever the extractor's gender scan captures a token
from the loose male set the gender field is `Male`, for the loose
female set it is `Female`, and normalizing an already-canonical value
leaves it unchanged.  The token `man` case holds vacuously: the
ordered alternation `(male|female|m|f|man|woman)` captures `m` at any
position where `man` could match, so `man` is never the captured
token. -/
theorem c3_gender_normalization (text : String) (tok : List Char)
    (h : firstGenderToken genderLineFB (linesOf text) = some tok) :
    ((tok = "m".toList ∨ tok = "M".toList ∨ tok = "male".toList ∨
        tok = "Male".toList ∨ tok = "man".toList) →
      (fallbackExtraction text).gender = "Male") ∧
    ((tok = "f".toList ∨ tok = "F".toList ∨ tok = "female".toList ∨
        tok = "Female".toList ∨ tok = "woman".toList) →
      (fallbackExtraction text).gender = "Female") ∧
    normalizeGender "Male".toList = "Male".toList ∧
    normalizeGender "Female".toList = "Female".toList := by
  have hg := fallback_gender_eq text tok h
  refine ⟨?_, ?_, by decide, by decide⟩
  · rintro (rfl | rfl | rfl | rfl | rfl)
    · rw [hg]; decide
    · rw [hg]; decide
    · rw [hg]; decide
    · rw [hg]; decide
    · exfalso
      obtain ⟨l, hl⟩ := firstGenderToken_some _ _ _ h
      obtain ⟨s1, hs1⟩ := scanLeftmost_some _ _ _ hl
      obtain ⟨s2, hs2⟩ := tryLabels_some _ _ _ _ hs1
      obtain ⟨s3, hs3⟩ := sepThenK_some _ _ _ hs2
      exact capAlts_fb_ne_man s3 _ hs3 rfl
  · rintro (rfl | rfl | rfl | rfl | rfl) <;> rw [hg] <;> decide

/-- Witness for C3 at a concrete input: the line `Gender: woman`
captures the token `woman` and the extractor normalizes it to
`Female`. -/
theorem c3_gender_normalization_witness :
    firstGenderToken genderLineFB (linesOf "Gender: woman")
        = some "woman".toList
      ∧ (fallbackExtraction "Gender: woman").gender = "Female" :=
  ⟨by decide,
   (c3_gender_normalization "Gender: woman" "woman".toList (by decide)).2.1
     (by decide)⟩

/-- Claim C4, counterexample.  When the parsed remote answer already
has a non-empty `patientName` and `diagnosis`, the gap-fill loop does
not run at all: with remote answer `patientName = Jane`,
`diagnosis = flu` and original text `Age: 30`, the final `age` stays
empty even though the labeled-regex scan of the original text yields
`30` — refuting the claim that still-empty fields are filled
regardless of the parse outcome. -/
theorem c4_gapfill_cex :
    (enhanceHandler (some ⟨some "Jane", none, none, none, some "flu", none⟩)
        "Age: 30").age = ""
      ∧ fillVal edgeAgeScan "Age: 30" = "30" := by
  exact ⟨by decide, by decide⟩

/-- Claim C4, amended: the gap-fill only runs when the merged
`patientName` or `diagnosis` is empty; under that guard every
still-empty field is filled from the labeled-regex scan of the
original text.  In particular a remote answer carrying only
`patientName = Jane` leaves `diagnosis` empty, so the scan runs and
every other field equals its scan value on the original text. -/
theorem c4_gapfill_amended (p : AIPartial) (text : String) :
    ((mergeAI p).patientName = "" ∨ (mergeAI p).diagnosis = "" →
      enhanceHandler (some p) text = gapFillAll (mergeAI p) text) ∧
    enhanceHandler (some ⟨some "Jane", none, none, none, none, none⟩) text
      = ⟨"Jane", fillVal edgeAgeScan text, fillGenderVal text,
          fillVal edgeDateScan text, fillVal edgeDiagScan text,
          fillVal edgeRxScan text⟩ := by
  constructor
  · intro h
    unfold enhanceHandler edgeFill
    rw [if_pos h]
  · unfold enhanceHandler edgeFill mergeAI gapFillAll
    simp

/-- Witness for C4's amended theorem at a concrete input: an
empty merged diagnosis triggers the gap fill. -/
theorem c4_gapfill_amended_witness :
    ((mergeAI ⟨some "Jane", none, none, none, none, none⟩).patientName = ""
        ∨ (mergeAI ⟨some "Jane", none, none, none, none, none⟩).diagnosis = "")
      ∧ enhanceHandler (some ⟨some "Jane", none, none, none, none, none⟩)
          "Age: 30"
        = gapFillAll (mergeAI ⟨some "Jane", none, none, none, none, none⟩)
            "Age: 30" :=
  ⟨Or.inr (by decide),
   (c4_gapfill_amended ⟨some "Jane", none, none, none, none, none⟩
       "Age: 30").1 (Or.inr (by decide))⟩


/-- Claim C5: the extractor is a total function into the six-field
record; a field whose pattern matches no line (and, for name and age,
whose whole-text fallback also finds nothing) is the empty string.
Totality and purity are witnessed by `extractFields` being a total
Lean function. -/
theorem c5_fields_default_empty (text : String) :
    ((∀ l ∈ linesOf text, nameLineOCR l = none) →
        nameFallback text.toList = none →
        (extractFields text).patientName = "") ∧
    ((∀ l ∈ linesOf text, ageLineOCR l = none) →
        ageFallback text.toList = none →
        (extractFields text).age = "") ∧
    ((∀ l ∈ linesOf text, genderLineOCR l = none) →
        (extractFields text).gender = "") ∧
    ((∀ l ∈ linesOf text, dateLineOCR l = none) →
        (extractFields text).date = "") ∧
    ((∀ l ∈ linesOf text, diagLineOCR l = none) →
        (extractFields text).diagnosis = "") ∧
    ((∀ l ∈ linesOf text, rxLineOCR l = none) →
        (extractFields text).prescription = "") := by
  refine ⟨?_, ?_, ?_, ?_, ?_, ?_⟩
  · intro h1 h2
    have h2d : nameFallback text.data = none := h2
    simp [extractFields, firstFieldValue_of_none _ _ h1, h2d]
  · intro h1 h2
    have h2d : ageFallback text.data = none := h2
    simp [extractFields, firstFieldValue_of_none _ _ h1, h2d]
  · intro h1
    simp [extractFields, firstGenderToken_of_none _ _ h1]
  · intro h1
    simp [extractFields, firstFieldValue_of_none _ _ h1]
  · intro h1
    simp [extractFields, firstFieldValue_of_none _ _ h1]
  · intro h1
    simp [extractFields, firstFieldValue_of_none _ _ h1]

/-- Witness for C5 at the empty text: no line and no fallback matches,
and every field of the result is the empty string. -/
theorem c5_fields_default_empty_witness :
    (extractFields "").patientName = "" ∧ (extractFields "").age = ""
      ∧ (extractFields "").gender = "" ∧ (extractFields "").date = ""
      ∧ (extractFields "").diagnosis = ""
      ∧ (extractFields "").prescription = "" :=
  ⟨(c5_fields_default_empty "").1 (by decide) (by decide),
   (c5_fields_default_empty "").2.1 (by decide) (by decide),
   (c5_fields_default_empty "").2.2.1 (by decide),
   (c5_fields_default_empty "").2.2.2.1 (by decide),
   (c5_fields_default_empty "").2.2.2.2.1 (by decide),
   (c5_fields_default_empty "").2.2.2.2.2 (by decide)⟩

/-- Every character the decimal rendering emits is a digit. -/
theorem isDigitChar_digitChar (n : Nat) :
    isDigitChar (digitChar n) = true := by
  unfold digitChar
  split_ifs <;> decide

/-- The fueled decimal rendering consists of digits only. -/
theorem decReprAux_all_digits :
    ∀ fuel n, (decReprAux fuel n).all isDigitChar = true := by
  intro fuel
  induction fuel with
  | zero => intro n; rfl
  | succ f ih =>
    intro n
    unfold decReprAux
    by_cases h : n < 10
    · rw [if_pos h]
      simp [isDigitChar_digitChar]
    · rw [if_neg h]
      simp [List.all_append, ih, isDigitChar_digitChar]

/-- With adequate fuel, a number at least `10 ^ k` renders to at least
`k + 1` digits. -/
theorem decReprAux_length : ∀ fuel k n : Nat, n < fuel → 10 ^ k ≤ n →
    k + 1 ≤ (decReprAux fuel n).length := by
  intro fuel
  induction fuel with
  | zero => intro k n h _; omega
  | succ f ih =>
    intro k n hfuel hpow
    unfold decReprAux
    by_cases h10 : n < 10
    · rw [if_pos h10]
      have hk : k = 0 := by
        by_contra hk0
        have h1 : 1 ≤ k := Nat.one_le_iff_ne_zero.mpr hk0
        have h2 : (10 : Nat) ^ 1 ≤ 10 ^ k := Nat.pow_le_pow_right (by omega) h1
        simp at h2
        omega
      subst hk
      simp
    · rw [if_neg h10]
      rw [List.length_append]
      cases k with
      | zero => simp
      | succ j =>
        have hdiv : n / 10 < f := by
          have h1 : n / 10 < n := Nat.div_lt_self (by omega) (by omega)
          omega
        have hpow2 : 10 ^ j ≤ n / 10 := by
          rw [Nat.le_div_iff_mul_le (by omega : (0 : Nat) < 10)]
          calc 10 ^ j * 10 = 10 ^ (j + 1) := (pow_succ 10 j).symm
            _ ≤ n := hpow
        have hj := ih j (n / 10) hdiv hpow2
        simp only [List.length_cons, List.length_nil]
        omega

/-- A timestamp of at least `100000` renders to at least six digits. -/
theorem decRepr_length (n : Nat) (h : 100000 ≤ n) :
    6 ≤ (decRepr n).length := by
  have hp : (10 : Nat) ^ 5 ≤ n := by norm_num; omega
  have := decReprAux_length (n + 1) 5 n (by omega) hp
  simpa [decRepr] using this

/-- For a realistic timestamp, the `slice(-6)` tail is exactly six
characters, all of them digits. -/
theorem last6_spec (n : Nat) (h : 100000 ≤ n) :
    (last6 n).length = 6 ∧ (last6 n).all isDigitChar = true := by
  have hlen := decRepr_length n h
  constructor
  · simp only [last6, List.length_drop]
    omega
  · simp only [last6]
    have hall : (decRepr n).all isDigitChar = true :=
      decReprAux_all_digits (n + 1) n
    rw [List.all_eq_true] at hall ⊢
    intro x hx
    exact hall x (List.drop_subset _ _ hx)

/-- Claim C6: for every timestamp at least `100000` (every real
`Date.now()` value is), `generatePatientId "John Smith"` is the
uppercased first three non-space name characters `JOH` followed by
exactly six decimal digits, the low six digits of the timestamp. -/
theorem c6_patient_id_format (now : Nat) (h : 100000 ≤ now) :
    (generatePatientId "John Smith" now).toList
        = 'J' :: 'O' :: 'H' :: last6 now
      ∧ (last6 now).length = 6 ∧ (last6 now).all isDigitChar = true :=
  ⟨rfl, (last6_spec now h).1, (last6_spec now h).2⟩

/-- Witness for C6 at the concrete timestamp `123456`. -/
theorem c6_patient_id_format_witness :
    100000 ≤ 123456
      ∧ (generatePatientId "John Smith" 123456).toList
          = 'J' :: 'O' :: 'H' :: last6 123456 :=
  ⟨by omega, (c6_patient_id_format 123456 (by omega)).1⟩

/-- Claim C7: a whitespace-only patient name trims to the empty string
and makes `handleSave` return the validation failure before any
persistence work: no patient id is generated, no image is uploaded and
no insert payload is produced (the `validationError` outcome carries
none). -/
theorem c7_save_validation (uid : String) (fields : ExtractedFields)
    (dateNorm : String → String) (todayISO imageStorageUrl rawText : String)
    (now : Nat) (h : String.mk (trimChars fields.patientName.toList) = "") :
    handleSave (some uid) fields dateNorm todayISO imageStorageUrl rawText now
      = SaveResult.validationError := by
  simp only [handleSave]
  rw [if_pos h]

/-- Witness for C7 at the whitespace-only name of the spec's testable
property. -/
theorem c7_save_validation_witness :
    String.mk (trimChars ("   " : String).toList) = ""
      ∧ handleSave (some "doc") ⟨"   ", "", "", "", "", ""⟩ (fun s => s)
          "2026-10-11" "" "" 0 = SaveResult.validationError :=
  ⟨by decide,
   c7_save_validation "doc" ⟨"   ", "", "", "", "", ""⟩ (fun s => s)
     "2026-10-11" "" "" 0 (by decide)⟩

/-- Claim C8, counterexample.  The save path inserts
`gender: fields.gender || null` with no canonical-value check: the
non-canonical, non-empty gender `Unknown` is passed through to the
stored record rather than replaced by null. -/
theorem c8_gender_passthrough_cex :
    storedGender (handleSave (some "doc") ⟨"Bob", "", "Unknown", "", "", ""⟩
        (fun s => s) "2026-10-11" "" "" 0) = some (DBVal.str "Unknown")
      ∧ "Unknown" ∉ (["Male", "Female", "Other"] : List String)
      ∧ DBVal.str "Unknown" ≠ DBVal.null :=
  ⟨by decide, by decide, by decide⟩

/-- Claim C8, amended: at the persistence boundary the gender value is
passed through to the stored record whenever it is a non-empty string
(canonical or not), and the stored gender is null exactly when the
field is empty. -/
theorem c8_gender_passthrough_amended (uid : String) (f : ExtractedFields)
    (dateNorm : String → String) (todayISO imageStorageUrl rawText : String)
    (now : Nat) (h : ¬ String.mk (trimChars f.patientName.toList) = "") :
    storedGender
        (handleSave (some uid) f dateNorm todayISO imageStorageUrl rawText now)
      = some (if f.gender = "" then DBVal.null else DBVal.str f.gender) := by
  simp only [handleSave]
  rw [if_neg h]
  rfl

/-- Witness for C8's amended theorem: an empty gender is stored as
null. -/
theorem c8_gender_passthrough_amended_witness :
    ¬ String.mk (trimChars ("Bob" : String).toList) = ""
      ∧ storedGender (handleSave (some "doc") ⟨"Bob", "", "", "", "", ""⟩
          (fun s => s) "2026-10-11" "" "" 0) = some DBVal.null := by
  refine ⟨by decide, ?_⟩
  have hth := c8_gender_passthrough_amended "doc" ⟨"Bob", "", "", "", "", ""⟩
    (fun s => s) "2026-10-11" "" "" 0 (by decide)
  simpa using hth

/-- Claim C9: both extractors only ever produce the empty string,
`Male`, or `Female` for the gender field — never `Other`, which can
only enter a record through the review form's select control. -/
theorem c9_gender_range (text : String) :
    ((extractFields text).gender = "" ∨ (extractFields text).gender = "Male"
        ∨ (extractFields text).gender = "Female")
      ∧ ((fallbackExtraction text).gender = ""
        ∨ (fallbackExtraction text).gender = "Male"
        ∨ (fallbackExtraction text).gender = "Female") := by
  constructor
  · cases hk : firstGenderToken genderLineOCR (linesOf text) with
    | none =>
      left
      simp [extractFields, hk]
    | some tok =>
      have hval : (extractFields text).gender
          = String.mk (normalizeGender tok) := by
        simp [extractFields, hk]
      rcases normalizeGender_cases tok with hm | hf
      · right; left; rw [hval, hm]; rfl
      · right; right; rw [hval, hf]; rfl
  · cases hk : firstGenderToken genderLineFB (linesOf text) with
    | none =>
      left
      simp [fallbackExtraction, hk]
    | some tok =>
      have hval : (fallbackExtraction text).gender
          = String.mk (normalizeGender (trimChars tok)) := by
        simp [fallbackExtraction, hk]
      rcases normalizeGender_cases (trimChars tok) with hm | hf
      · right; left; rw [hval, hm]; rfl
      · right; right; rw [hval, hf]; rfl

/-- Claim C10: a name with fewer than three non-space characters
yields the whole de-whitespaced name, uppercased, as the prefix —
including the empty prefix for an all-whitespace name — with no
failure and no padding. -/
theorem c10_short_name_id (name : String) (now : Nat)
    (h : (despace name.toList).length < 3) :
    (generatePatientId name now).toList
        = (despace name.toList).map upperChar ++ last6 now
      ∧ (despace name.toList = [] →
          (generatePatientId name now).toList = last6 now) := by
  have ht : (despace name.toList).take 3 = despace name.toList :=
    List.take_of_length_le (by omega)
  constructor
  · show ((despace name.toList).take 3).map upperChar ++ last6 now = _
    rw [ht]
  · intro h0
    show ((despace name.toList).take 3).map upperChar ++ last6 now = _
    rw [h0]
    simp

/-- Witness for C10 at the two-character name `al`. -/
theorem c10_short_name_id_witness :
    (despace ("al" : String).toList).length < 3
      ∧ (generatePatientId "al" 123456).toList
          = (despace ("al" : String).toList).map upperChar ++ last6 123456 :=
  ⟨by decide, (c10_short_name_id "al" 123456 (by decide)).1⟩
